import Mathlib

/-!
Shallow embedding of the two Python scripts of the monasca-docker repository:

* `init-job-test/check.py` — a Kubernetes job-completion poller: it discovers a
  set of jobs, repeatedly classifies each fetched job status as succeeded /
  pending / failed, and converges to an overall exit verdict within a bounded
  per-job retry budget.
* `ci.py` — a Travis CI helper; here we embed `get_dirty_modules`, which maps a
  list of changed file paths to the set of buildable module directories.

Python dynamic values are modelled as follows: a job status is a record with an
optional condition list (`'conditions' not in job.status` becomes `Option`) and
a success count (`if job.status.succeeded:` truthiness becomes `≠ 0` on a
`Nat`); the integer retry counter is an `Int` (Python ints do not truncate at
zero); the loop of `main` becomes an explicit state-passing step function over
a loop state, with the sequence of statuses the API would return for job `j`
at polling round `r` abstracted as a function `statusAt j r`.
-/

namespace Check

/-- A single entry of `job.status.conditions`: Kubernetes condition objects
with a `type` and a `status` (a boolean rendered as the string `"True"` /
`"False"`; `check.py` compares `str(condition.status)` with `'True'`). -/
structure Condition where
  type : String
  status : String
deriving DecidableEq

/-- The slice of a fetched job object that `check_success` inspects:
`conditions` is `none` when the `'conditions'` key is absent from
`job.status`, and `succeeded` is the success count (absent or zero counts are
both modelled as `0`, matching Python falsiness of `job.status.succeeded`). -/
structure JobStatus where
  conditions : Option (List Condition)
  succeeded : Nat
deriving DecidableEq

/-- `is_condition_complete(condition)` from `check.py`. -/
def is_condition_complete (condition : Condition) : Bool :=
  condition.type == "Complete" && condition.status == "True"

/-- `check_success(client, namespace, job, retries)` from `check.py`, with the
fetched job status passed explicitly. Returns the pair
`(success, retries)` the Python function returns:
no `conditions` key → `(False, retries - 1)`; no `Complete`/`True` condition
in the list → `(False, retries - 1)`; otherwise `(True, retries)` when the
success count is truthy and `(False, 0)` when it is not. -/
def check_success (status : JobStatus) (retries : Int) : Bool × Int :=
  match status.conditions with
  | none => (false, retries - 1)
  | some conditions =>
    let complete := conditions.filter is_condition_complete
    if complete.isEmpty then
      (false, retries - 1)
    else if status.succeeded ≠ 0 then
      (true, retries)
    else
      (false, 0)

/-- A fetched status is "pending" when it has no condition list at all or no
condition passing `is_condition_complete`; both branches of `check_success`
that decrement the counter. -/
def pendingStatus (status : JobStatus) : Bool :=
  match status.conditions with
  | none => true
  | some conditions => (conditions.filter is_condition_complete).isEmpty

/-- A fetched status has a `Complete`/`True` condition (the terminal branch of
`check_success`). -/
def hasCompleteTrue (status : JobStatus) : Bool :=
  match status.conditions with
  | none => false
  | some conditions => !(conditions.filter is_condition_complete).isEmpty

theorem check_success_of_pending (status : JobStatus) (retries : Int)
    (h : pendingStatus status = true) :
    check_success status retries = (false, retries - 1) := by
  unfold check_success
  unfold pendingStatus at h
  match hc : status.conditions with
  | none => simp
  | some conditions =>
    rw [hc] at h
    simp only []
    rw [if_pos (by simpa using h)]

theorem check_success_of_succeeded (status : JobStatus) (retries : Int)
    (hc : hasCompleteTrue status = true) (hs : status.succeeded ≠ 0) :
    check_success status retries = (true, retries) := by
  unfold check_success
  unfold hasCompleteTrue at hc
  match h : status.conditions with
  | none => rw [h] at hc; simp at hc
  | some conditions =>
    rw [h] at hc
    simp only []
    rw [if_neg (by simpa using hc), if_pos hs]

theorem check_success_of_failed (status : JobStatus) (retries : Int)
    (hc : hasCompleteTrue status = true) (hs : status.succeeded = 0) :
    check_success status retries = (false, 0) := by
  unfold check_success
  unfold hasCompleteTrue at hc
  match h : status.conditions with
  | none => rw [h] at hc; simp at hc
  | some conditions =>
    rw [h] at hc
    simp only []
    rw [if_neg (by simpa using hc), if_neg (by simp [hs])]

/-- Every result of `check_success` is one of the three shapes: success with
the counter unchanged, pending with the counter decremented, or failure with
the counter forced to `0`. -/
theorem check_success_cases (status : JobStatus) (retries : Int) :
    check_success status retries = (true, retries) ∨
    check_success status retries = (false, retries - 1) ∨
    check_success status retries = (false, 0) := by
  unfold check_success
  match status.conditions with
  | none => simp
  | some conditions =>
    by_cases h1 : (conditions.filter is_condition_complete).isEmpty <;>
      by_cases h2 : status.succeeded ≠ 0 <;> simp [h1, h2]

/-- The mutable state of `main`'s `while items:` loop. `items` pairs each
still-active job name with its remaining retry counter; `failed` is the
accumulated `failed` list (job names); `succeeded` records the names printed by
`'Job %s succeeded'` (the terminal success verdict); `round` counts completed
loop iterations (it indexes the abstract status source); `sleeps` counts the
executed `time.sleep(RETRY_DELAY)` calls and `fetches` the per-job refresh
`client.get` calls of the re-fetch loop at the bottom of the `while` body. -/
structure LoopState where
  round : Nat
  items : List (String × Int)
  failed : List String
  succeeded : List String
  sleeps : Nat
  fetches : Nat
deriving DecidableEq

/-- Names collected by the `if success:` branch in one pass over `items`:
jobs whose `check_success` returns `True`. `statusAt j r` is the job status
the API yields for job `j` at round `r`. -/
def succeededNow (statusAt : String → Nat → JobStatus) (round : Nat)
    (items : List (String × Int)) : List String :=
  items.filterMap fun p =>
    if (check_success (statusAt p.1 round) p.2).1 then some p.1 else none

/-- Names appended to `failed` in one pass over `items`: `check_success`
returned `False` with a retry counter of `0` (`if retries is 0`). -/
def failedNow (statusAt : String → Nat → JobStatus) (round : Nat)
    (items : List (String × Int)) : List String :=
  items.filterMap fun p =>
    let c := check_success (statusAt p.1 round) p.2
    if !c.1 && c.2 == 0 then some p.1 else none

/-- The `remaining` list built in one pass over `items`: `check_success`
returned `False` with a nonzero retry counter; the pair keeps the updated
counter. -/
def remainingAfter (statusAt : String → Nat → JobStatus) (round : Nat)
    (items : List (String × Int)) : List (String × Int) :=
  items.filterMap fun p =>
    let c := check_success (statusAt p.1 round) p.2
    if !c.1 && c.2 != 0 then some (p.1, c.2) else none

/-- One iteration of the `while items:` loop of `main`: classify every active
job, extend the verdict lists, sleep once when some job remains (`if
remaining:`), and re-fetch each remaining job's status (counted by
`fetches`). -/
def stepRound (statusAt : String → Nat → JobStatus) (s : LoopState) :
    LoopState :=
  let rem := remainingAfter statusAt s.round s.items
  { round := s.round + 1
    items := rem
    failed := s.failed ++ failedNow statusAt s.round s.items
    succeeded := s.succeeded ++ succeededNow statusAt s.round s.items
    sleeps := s.sleeps + (if rem.isEmpty then 0 else 1)
    fetches := s.fetches + rem.length }

/-- The `while items:` loop, with explicit fuel: runs `stepRound` until the
active list is empty or the fuel runs out. -/
def runLoop (statusAt : String → Nat → JobStatus) :
    Nat → LoopState → LoopState
  | 0, s => s
  | fuel + 1, s =>
    if s.items.isEmpty then s else runLoop statusAt fuel (stepRound statusAt s)

/-- The initial loop state of `main`: `items = [(item, RETRIES) for item in
jobs['items']]` with empty verdict lists and zero counters. -/
def initState (jobs : List String) (retries : Int) : LoopState :=
  ⟨0, jobs.map fun j => (j, retries), [], [], 0, 0⟩

/-- The observable outcome of a run of `main`: the process exit code, the
number of loop rounds, sleeps, and refresh fetches, and the names of the
failed jobs whose details (`job.pprint()`) were printed before exit. -/
structure RunResult where
  exitCode : Nat
  rounds : Nat
  sleeps : Nat
  fetches : Nat
  printedFailed : List String
deriving DecidableEq

/-- The epilogue of `main` after the loop: `if failed:` print the header, then
`for job in failed: job.pprint(); sys.exit(1)` — the `sys.exit(1)` sits inside
the `for` body, so only the first failed job's details are printed before the
process exits with code 1; with an empty `failed` list the script reports
success and exits with code 0. Returns `(exit code, names printed)`. -/
def finalReport : List String → Nat × List String
  | [] => (0, [])
  | j :: _ => (1, [j])

/-- `main` from `check.py`, starting at the point where the discovered job
list is known: with no jobs it exits 0 immediately (`sys.exit(0)`) with no
rounds, sleeps or fetches; otherwise it runs the polling loop and then the
failure-reporting epilogue. -/
def mainRun (statusAt : String → Nat → JobStatus) (jobs : List String)
    (retries : Int) (fuel : Nat) : RunResult :=
  let s0 := initState jobs retries
  if s0.items.isEmpty then ⟨0, 0, 0, 0, []⟩
  else
    let fin := runLoop statusAt fuel s0
    let rep := finalReport fin.failed
    ⟨rep.1, fin.round, fin.sleeps, fin.fetches, rep.2⟩

/-- Error kinds a status fetch may raise (the spec's
`Unreachable | Timeout | NotFound` transient failures). In `check.py` these
surface as exceptions from `client.get`. -/
inductive FetchError
  | Unreachable
  | Timeout
  | NotFound
deriving DecidableEq

/-- Loop state for the fallible-fetch variant of the loop: each active item
carries the job status fetched for it at the end of the previous round (round
0 uses the objects returned by the initial discovery query). -/
structure LoopStateE where
  round : Nat
  items : List (String × JobStatus × Int)
  failed : List String
  succeeded : List String
  sleeps : Nat
deriving DecidableEq

/-- Success verdicts of one pass over fallible-variant items. -/
def succeededNowE (items : List (String × JobStatus × Int)) : List String :=
  items.filterMap fun it =>
    if (check_success it.2.1 it.2.2).1 then some it.1 else none

/-- Failure verdicts of one pass over fallible-variant items. -/
def failedNowE (items : List (String × JobStatus × Int)) : List String :=
  items.filterMap fun it =>
    let c := check_success it.2.1 it.2.2
    if !c.1 && c.2 == 0 then some it.1 else none

/-- The `remaining` list of one pass over fallible-variant items (name and
updated counter; the stale status is dropped, a fresh one is fetched). -/
def remainingE (items : List (String × JobStatus × Int)) :
    List (String × Int) :=
  items.filterMap fun it =>
    let c := check_success it.2.1 it.2.2
    if !c.1 && c.2 != 0 then some (it.1, c.2) else none

/-- The re-fetch loop at the bottom of the `while` body of `main`:
`refreshed_job = client.get(...)` for each remaining job, in list order, with
no exception handling — the first fetch error propagates and aborts. -/
def refreshAll (fetch : String → Nat → Except FetchError JobStatus)
    (round : Nat) :
    List (String × Int) → Except FetchError (List (String × JobStatus × Int))
  | [] => .ok []
  | (j, r) :: rest =>
    match fetch j round with
    | .error e => .error e
    | .ok st =>
      match refreshAll fetch round rest with
      | .error e => .error e
      | .ok tail => .ok ((j, st, r) :: tail)

/-- The `while items:` loop of `main` with the per-job status re-fetch made
explicit and fallible: `fetch j r` is the status the API returns for job `j`
when it is refreshed for round `r`. An exception from any refresh propagates
out of the loop (there is no `try`/`except` in `main`), aborting the whole
run. -/
def runLoopE (fetch : String → Nat → Except FetchError JobStatus) :
    Nat → LoopStateE → Except FetchError LoopStateE
  | 0, s => .ok s
  | fuel + 1, s =>
    if s.items.isEmpty then .ok s
    else
      let rem := remainingE s.items
      let f := s.failed ++ failedNowE s.items
      let suc := s.succeeded ++ succeededNowE s.items
      let sl := s.sleeps + (if rem.isEmpty then 0 else 1)
      match refreshAll fetch (s.round + 1) rem with
      | .error e => .error e
      | .ok newItems => runLoopE fetch fuel ⟨s.round + 1, newItems, f, suc, sl⟩

end Check

namespace CI

/-- POSIX `os.path.join(a, b)`: `b` wins when absolute; otherwise `b` is
appended to `a`, inserting a separator unless `a` is empty or already ends
with one. -/
def os_path_join (a b : String) : String :=
  if b.startsWith "/" then b
  else if a = "" ∨ a.endsWith "/" then a ++ b
  else a ++ "/" ++ b

/-- `f.split(os.path.sep, 1)[0]`: the part of a path before its first `/`
(the whole string when it has none). `os.path.sep` is `'/'` on the POSIX
systems this CI script targets. -/
def firstComponent (f : String) : String :=
  ((f.splitOn "/").headD "")

/-- The `for` loop of `get_dirty_modules(dirty_files)` from `ci.py`, with the
filesystem abstracted as `fsExists` (what `os.path.exists` answers) and the
Python `set` modelled as a duplicate-free list grown by
insert-if-absent. Files without a separator are skipped; so are modules
missing a `Dockerfile` or a `build.yml` (the two `continue` guards). -/
def get_dirty_modules_loop (fsExists : String → Bool) :
    List String → List String → List String
  | dirty, [] => dirty
  | dirty, f :: rest =>
    if f.contains '/' then
      let mod := firstComponent f
      if !(fsExists (os_path_join mod "Dockerfile")) then
        get_dirty_modules_loop fsExists dirty rest
      else if !(fsExists (os_path_join mod "build.yml")) then
        get_dirty_modules_loop fsExists dirty rest
      else
        get_dirty_modules_loop fsExists
          (if mod ∈ dirty then dirty else dirty ++ [mod]) rest
    else
      get_dirty_modules_loop fsExists dirty rest

/-- `get_dirty_modules(dirty_files)` from `ci.py`. -/
def get_dirty_modules (fsExists : String → Bool)
    (dirty_files : List String) : List String :=
  get_dirty_modules_loop fsExists [] dirty_files

end CI

namespace Check

theorem mem_remainingAfter {statusAt : String → Nat → JobStatus} {round : Nat}
    {items : List (String × Int)} {j : String} {r : Int} :
    (j, r) ∈ remainingAfter statusAt round items ↔
      ∃ r0, (j, r0) ∈ items ∧
        (check_success (statusAt j round) r0).1 = false ∧
        (check_success (statusAt j round) r0).2 = r ∧ r ≠ 0 := by
  unfold remainingAfter
  rw [List.mem_filterMap]
  constructor
  · rintro ⟨⟨a, b⟩, hab, he⟩
    simp only [] at he
    split_ifs at he with hcond
    · rw [Option.some.injEq, Prod.mk.injEq] at he
      obtain ⟨rfl, rfl⟩ := he
      rw [Bool.and_eq_true, Bool.not_eq_true', bne_iff_ne] at hcond
      exact ⟨b, hab, hcond.1, rfl, hcond.2⟩
  · rintro ⟨r0, h0, hc1, hc2, hne⟩
    refine ⟨(j, r0), h0, ?_⟩
    simp only []
    rw [if_pos ?_]
    · rw [Option.some.injEq, Prod.mk.injEq]
      exact ⟨rfl, hc2⟩
    · rw [Bool.and_eq_true, Bool.not_eq_true', bne_iff_ne]
      exact ⟨hc1, hc2 ▸ hne⟩

theorem mem_failedNow {statusAt : String → Nat → JobStatus} {round : Nat}
    {items : List (String × Int)} {j : String} :
    j ∈ failedNow statusAt round items ↔
      ∃ r0, (j, r0) ∈ items ∧
        (check_success (statusAt j round) r0).1 = false ∧
        (check_success (statusAt j round) r0).2 = 0 := by
  unfold failedNow
  rw [List.mem_filterMap]
  constructor
  · rintro ⟨⟨a, b⟩, hab, he⟩
    simp only [] at he
    split_ifs at he with hcond
    · rw [Option.some.injEq] at he
      subst he
      rw [Bool.and_eq_true, Bool.not_eq_true', beq_iff_eq] at hcond
      exact ⟨b, hab, hcond.1, hcond.2⟩
  · rintro ⟨r0, h0, hc1, hc2⟩
    refine ⟨(j, r0), h0, ?_⟩
    simp only []
    rw [if_pos ?_]
    · rw [Bool.and_eq_true, Bool.not_eq_true', beq_iff_eq]
      exact ⟨hc1, hc2⟩

theorem mem_succeededNow {statusAt : String → Nat → JobStatus} {round : Nat}
    {items : List (String × Int)} {j : String} :
    j ∈ succeededNow statusAt round items ↔
      ∃ r0, (j, r0) ∈ items ∧
        (check_success (statusAt j round) r0).1 = true := by
  unfold succeededNow
  rw [List.mem_filterMap]
  constructor
  · rintro ⟨⟨a, b⟩, hab, he⟩
    simp only [] at he
    split_ifs at he with hcond
    · rw [Option.some.injEq] at he
      subst he
      exact ⟨b, hab, hcond⟩
  · rintro ⟨r0, h0, hc1⟩
    exact ⟨(j, r0), h0, by simp only []; rw [if_pos hc1]⟩

/-- Job names present in the active list never grow: any name active after
running the loop was already active at the start (with some counter). -/
theorem runLoop_items_subset (statusAt : String → Nat → JobStatus) :
    ∀ (fuel : Nat) (s : LoopState) (j : String) (r : Int),
      (j, r) ∈ (runLoop statusAt fuel s).items → ∃ r0, (j, r0) ∈ s.items := by
  intro fuel
  induction fuel with
  | zero => exact fun s j r h => ⟨r, h⟩
  | succ n ih =>
    intro s j r h
    rw [runLoop] at h
    split_ifs at h with he
    · exact ⟨r, h⟩
    · obtain ⟨r1, h1⟩ := ih (stepRound statusAt s) j r h
      have : (stepRound statusAt s).items =
          remainingAfter statusAt s.round s.items := rfl
      rw [this, mem_remainingAfter] at h1
      obtain ⟨r0, h0, -⟩ := h1
      exact ⟨r0, h0⟩

/-- C1: a job whose fetched status has a `Complete`/`True` condition and a
positive success count is classified succeeded by `check_success` on the very
round that observes it, with the retry counter returned unchanged; in that
round's `stepRound` the job leaves the active list and is not added to the
failed list. -/
theorem complete_succeeded_first_round (st : JobStatus) (retries : Int)
    (hc : hasCompleteTrue st = true) (hs : st.succeeded ≠ 0) :
    check_success st retries = (true, retries) ∧
    ∀ (statusAt : String → Nat → JobStatus) (s : LoopState) (j : String),
      statusAt j s.round = st →
      (∀ r : Int, (j, r) ∉ (stepRound statusAt s).items) ∧
      (j ∈ (stepRound statusAt s).failed ↔ j ∈ s.failed) := by
  refine ⟨check_success_of_succeeded st retries hc hs, ?_⟩
  intro statusAt s j hj
  have hck : ∀ r0 : Int, check_success (statusAt j s.round) r0 = (true, r0) :=
    fun r0 => by rw [hj]; exact check_success_of_succeeded st r0 hc hs
  constructor
  · intro r hr
    have hit : (stepRound statusAt s).items =
        remainingAfter statusAt s.round s.items := rfl
    rw [hit, mem_remainingAfter] at hr
    obtain ⟨r0, -, h1, -, -⟩ := hr
    rw [hck r0] at h1
    exact absurd h1 (by simp)
  · have hf : (stepRound statusAt s).failed =
        s.failed ++ failedNow statusAt s.round s.items := rfl
    rw [hf, List.mem_append]
    constructor
    · rintro (h | h)
      · exact h
      · rw [mem_failedNow] at h
        obtain ⟨r0, -, h1, -⟩ := h
        rw [hck r0] at h1
        exact absurd h1 (by simp)
    · exact Or.inl

/-- Witness for C1 at a concrete complete, succeeded status and counter 5. -/
theorem complete_succeeded_first_round_witness :
    check_success ⟨some [⟨"Complete", "True"⟩], 1⟩ 5 = (true, 5) :=
  (complete_succeeded_first_round ⟨some [⟨"Complete", "True"⟩], 1⟩ 5
    (by decide) (by decide)).1


/-- C2: a job whose fetched status has a `Complete`/`True` condition but a
zero success count is classified failed immediately: `check_success` returns
`(False, 0)` regardless of the remaining budget, the job is appended to the
failed list in that same round, and it never appears in the active list of any
later round. -/
theorem complete_zero_failed_immediately (st : JobStatus) (retries : Int)
    (hc : hasCompleteTrue st = true) (hs : st.succeeded = 0) :
    check_success st retries = (false, 0) ∧
    ∀ (statusAt : String → Nat → JobStatus) (s : LoopState) (j : String)
      (r0 : Int), (j, r0) ∈ s.items → statusAt j s.round = st →
      j ∈ (stepRound statusAt s).failed ∧
      ∀ (fuel : Nat) (r : Int),
        (j, r) ∉ (runLoop statusAt fuel (stepRound statusAt s)).items := by
  refine ⟨check_success_of_failed st retries hc hs, ?_⟩
  intro statusAt s j r0 hmem hj
  have hck : ∀ r1 : Int, check_success (statusAt j s.round) r1 = (false, 0) :=
    fun r1 => by rw [hj]; exact check_success_of_failed st r1 hc hs
  have hstep : ∀ r : Int, (j, r) ∉ (stepRound statusAt s).items := by
    intro r hr
    have hit : (stepRound statusAt s).items =
        remainingAfter statusAt s.round s.items := rfl
    rw [hit, mem_remainingAfter] at hr
    obtain ⟨r1, -, -, h2, hne⟩ := hr
    rw [hck r1] at h2
    exact hne h2.symm
  refine ⟨?_, ?_⟩
  · have hf : (stepRound statusAt s).failed =
        s.failed ++ failedNow statusAt s.round s.items := rfl
    rw [hf, List.mem_append]
    refine Or.inr ?_
    rw [mem_failedNow]
    exact ⟨r0, hmem, by rw [hck r0], by rw [hck r0]⟩
  · intro fuel r hr
    obtain ⟨r1, h1⟩ := runLoop_items_subset statusAt fuel _ j r hr
    exact hstep r1 h1

/-- Witness for C2 at a concrete complete status with zero successes and
counter 7. -/
theorem complete_zero_failed_immediately_witness :
    check_success ⟨some [⟨"Complete", "True"⟩], 0⟩ 7 = (false, 0) :=
  (complete_zero_failed_immediately ⟨some [⟨"Complete", "True"⟩], 0⟩ 7
    (by decide) (by decide)).1

/-- C3: a job observed in a non-terminal state — no `conditions` key at all,
or a condition list without a `Complete`/`True` entry — is classified pending:
`check_success` returns the counter decremented by exactly 1, and while the
decremented counter is positive the job stays in the active list for the next
round, carrying that counter. -/
theorem pending_decrements_and_stays (st : JobStatus) (retries : Int)
    (hp : pendingStatus st = true) :
    check_success st retries = (false, retries - 1) ∧
    ∀ (statusAt : String → Nat → JobStatus) (s : LoopState) (j : String),
      (j, retries) ∈ s.items → statusAt j s.round = st →
      0 < retries - 1 → (j, retries - 1) ∈ (stepRound statusAt s).items := by
  refine ⟨check_success_of_pending st retries hp, ?_⟩
  intro statusAt s j hmem hj hpos
  have hit : (stepRound statusAt s).items =
      remainingAfter statusAt s.round s.items := rfl
  rw [hit, mem_remainingAfter]
  have hck : check_success (statusAt j s.round) retries =
      (false, retries - 1) := by
    rw [hj]; exact check_success_of_pending st retries hp
  exact ⟨retries, hmem, by rw [hck], by rw [hck], by omega⟩

/-- Witness for C3 at a status with no conditions and counter 5. -/
theorem pending_decrements_and_stays_witness :
    check_success ⟨none, 0⟩ 5 = (false, 5 - 1) :=
  (pending_decrements_and_stays ⟨none, 0⟩ 5 (by decide)).1


theorem runLoop_of_items_nil {statusAt : String → Nat → JobStatus}
    {s : LoopState} (h : s.items = []) (fuel : Nat) :
    runLoop statusAt fuel s = s := by
  cases fuel with
  | zero => rfl
  | succ n => simp only [runLoop]; rw [if_pos (by simp [h])]

/-- One round on a single pending job: the counter drops by one; when it hits
zero the job moves to the failed list with no sleep and no re-fetch, otherwise
it stays active and the round sleeps once and re-fetches once. -/
theorem stepRound_single_pending (statusAt : String → Nat → JobStatus)
    (j : String) (r0 : Nat) (ret : Int) (F S : List String) (sl fe : Nat)
    (hp : pendingStatus (statusAt j r0) = true) :
    stepRound statusAt ⟨r0, [(j, ret)], F, S, sl, fe⟩ =
      if ret - 1 = 0 then ⟨r0 + 1, [], F ++ [j], S, sl, fe⟩
      else ⟨r0 + 1, [(j, ret - 1)], F, S, sl + 1, fe + 1⟩ := by
  have hck := check_success_of_pending (statusAt j r0) ret hp
  by_cases h : ret - 1 = 0
  · rw [if_pos h]
    unfold stepRound remainingAfter failedNow succeededNow
    simp [hck, h]
  · rw [if_neg h]
    unfold stepRound remainingAfter failedNow succeededNow
    simp [hck, h]

/-- Running the loop on a single always-pending job with counter `k` and fuel
`k` consumes the whole budget: after exactly `k` rounds the active list is
empty, the job is on the failed list, and `k - 1` sleeps and re-fetches
happened. -/
theorem runLoop_single_pending (statusAt : String → Nat → JobStatus)
    (j : String) (hnc : ∀ r, pendingStatus (statusAt j r) = true) :
    ∀ (k : Nat), 1 ≤ k → ∀ (r0 : Nat) (F S : List String) (sl fe : Nat),
      runLoop statusAt k ⟨r0, [(j, (k : Int))], F, S, sl, fe⟩ =
        ⟨r0 + k, [], F ++ [j], S, sl + (k - 1), fe + (k - 1)⟩ := by
  intro k
  induction k with
  | zero => intro h; exact absurd h (by omega)
  | succ n ih =>
    intro _ r0 F S sl fe
    simp only [runLoop]
    rw [if_neg (by simp)]
    rw [stepRound_single_pending statusAt j r0 _ F S sl fe (hnc r0)]
    by_cases hn : n = 0
    · subst hn
      rw [if_pos (by norm_num)]
      rw [runLoop_of_items_nil rfl]
      simp
    · rw [if_neg (by push_cast; omega)]
      have hcast : ((n + 1 : Nat) : Int) - 1 = ((n : Nat) : Int) := by
        push_cast; omega
      rw [hcast, ih (by omega) (r0 + 1) F S (sl + 1) (fe + 1)]
      simp only [LoopState.mk.injEq, and_true, true_and]
      omega

/-- Running the loop on a single always-pending job with counter `k` for only
`m < k` rounds leaves the job active with counter `k - m`, after `m` sleeps
and `m` re-fetches. -/
theorem runLoop_single_pending_partial (statusAt : String → Nat → JobStatus)
    (j : String) (hnc : ∀ r, pendingStatus (statusAt j r) = true) :
    ∀ (m k : Nat), m < k → ∀ (r0 : Nat) (F S : List String) (sl fe : Nat),
      runLoop statusAt m ⟨r0, [(j, (k : Int))], F, S, sl, fe⟩ =
        ⟨r0 + m, [(j, ((k - m : Nat) : Int))], F, S, sl + m, fe + m⟩ := by
  intro m
  induction m with
  | zero =>
    intro k _ r0 F S sl fe
    simp [runLoop]
  | succ n ih =>
    intro k hk r0 F S sl fe
    simp only [runLoop]
    rw [if_neg (by simp)]
    rw [stepRound_single_pending statusAt j r0 _ F S sl fe (hnc r0)]
    rw [if_neg (by omega)]
    have hcast : (k : Int) - 1 = ((k - 1 : Nat) : Int) := by omega
    rw [hcast, ih (k - 1) (by omega) (r0 + 1) F S (sl + 1) (fe + 1)]
    simp only [LoopState.mk.injEq, List.cons.injEq, Prod.mk.injEq, and_true,
      true_and]
    omega

/-- The loop empties its active list within fuel `N` whenever every active
counter lies in `[1, N]`: each round removes a job (terminal verdict) or
strictly decreases its counter, which stays at least 1 while active. -/
theorem runLoop_bounded (statusAt : String → Nat → JobStatus) :
    ∀ (N : Nat) (s : LoopState),
      (∀ p ∈ s.items, 1 ≤ p.2 ∧ p.2 ≤ (N : Int)) →
      (runLoop statusAt N s).items = [] := by
  intro N
  induction N with
  | zero =>
    intro s h
    have hnil : s.items = [] := by
      cases hi : s.items with
      | nil => rfl
      | cons a l =>
        have := h a (hi ▸ List.mem_cons_self a l)
        simp at this
        omega
    simpa [runLoop] using hnil
  | succ n ih =>
    intro s h
    simp only [runLoop]
    split_ifs with he
    · rw [List.isEmpty_iff] at he
      exact he
    · apply ih
      intro p hp
      have hit : (stepRound statusAt s).items =
          remainingAfter statusAt s.round s.items := rfl
      rw [hit] at hp
      obtain ⟨a, r⟩ := p
      rw [mem_remainingAfter] at hp
      obtain ⟨r0, h0, hc1, hc2, hne⟩ := hp
      have hb := h (a, r0) h0
      simp only at hb ⊢
      rcases check_success_cases (statusAt a s.round) r0 with hcs | hcs | hcs
      · rw [hcs] at hc1; simp at hc1
      · rw [hcs] at hc2
        simp only at hc2
        push_cast at hb ⊢
        omega
      · rw [hcs] at hc2
        simp only at hc2
        exact absurd hc2.symm hne


theorem runLoop_failed_mono (statusAt : String → Nat → JobStatus) :
    ∀ (fuel : Nat) (s : LoopState) (j : String),
      j ∈ s.failed → j ∈ (runLoop statusAt fuel s).failed := by
  intro fuel
  induction fuel with
  | zero => exact fun s j h => h
  | succ n ih =>
    intro s j h
    simp only [runLoop]
    split_ifs with he
    · exact h
    · refine ih _ j ?_
      have hf : (stepRound statusAt s).failed =
          s.failed ++ failedNow statusAt s.round s.items := rfl
      rw [hf]
      exact List.mem_append_left _ h

/-- In any mix of jobs, a job whose status never shows a complete condition
lands on the failed list once its counter, currently `k ≥ 1`, is consumed,
provided at least `k` rounds of fuel remain. -/
theorem runLoop_pending_job_fails (statusAt : String → Nat → JobStatus)
    (j : String) (hnc : ∀ r, pendingStatus (statusAt j r) = true) :
    ∀ (k : Nat), 1 ≤ k → ∀ (fuel : Nat), k ≤ fuel → ∀ s : LoopState,
      (j, (k : Int)) ∈ s.items → j ∈ (runLoop statusAt fuel s).failed := by
  intro k
  induction k with
  | zero => intro h; exact absurd h (by omega)
  | succ n ih =>
    intro _ fuel hfuel s hmem
    obtain ⟨f, rfl⟩ : ∃ f, fuel = f + 1 := ⟨fuel - 1, by omega⟩
    have hne : s.items.isEmpty = false := by
      cases hi : s.items with
      | nil => rw [hi] at hmem; exact absurd hmem (by simp)
      | cons a l => rfl
    simp only [runLoop]
    rw [if_neg (by rw [hne]; simp)]
    by_cases hn : n = 0
    · subst hn
      apply runLoop_failed_mono
      have hf : (stepRound statusAt s).failed =
          s.failed ++ failedNow statusAt s.round s.items := rfl
      rw [hf]
      refine List.mem_append_right _ ?_
      rw [mem_failedNow]
      refine ⟨((1 : Nat) : Int), hmem, ?_, ?_⟩
      · rw [check_success_of_pending _ _ (hnc s.round)]
      · rw [check_success_of_pending _ _ (hnc s.round)]
        norm_num
    · refine ih (by omega) f (by omega) (stepRound statusAt s) ?_
      have hit : (stepRound statusAt s).items =
          remainingAfter statusAt s.round s.items := rfl
      rw [hit, mem_remainingAfter]
      refine ⟨((n + 1 : Nat) : Int), hmem, ?_, ?_, ?_⟩
      · rw [check_success_of_pending _ _ (hnc s.round)]
      · rw [check_success_of_pending _ _ (hnc s.round)]
        push_cast
        omega
      · omega

/-- A status source that always reports a running job (no conditions yet). -/
def allPendingStatusAt : String → Nat → JobStatus := fun _ _ => ⟨none, 0⟩

/-- C4: a job whose fetched status is never `Complete`/`True` exhausts its
budget: seeded with counter `R ≥ 1`, after exactly `R` rounds it sits on the
failed list and the active list is empty, while after `R - 1` rounds it is
still active; in any mix of jobs it lands on the failed list once its counter
is consumed; and in general the loop's active list empties within `N` rounds
whenever every active counter lies in `[1, N]`, because each round removes a
job or strictly decreases its counter. -/
theorem budget_exhaustion_terminates (statusAt : String → Nat → JobStatus)
    (j : String) (R : Nat) (hR : 1 ≤ R)
    (hnc : ∀ r, pendingStatus (statusAt j r) = true) :
    (runLoop statusAt R ⟨0, [(j, (R : Int))], [], [], 0, 0⟩).failed = [j] ∧
    (runLoop statusAt R ⟨0, [(j, (R : Int))], [], [], 0, 0⟩).items = [] ∧
    (runLoop statusAt R ⟨0, [(j, (R : Int))], [], [], 0, 0⟩).round = R ∧
    (runLoop statusAt (R - 1) ⟨0, [(j, (R : Int))], [], [], 0, 0⟩).items ≠ []
    ∧
    (∀ (k fuel : Nat) (s : LoopState), 1 ≤ k → k ≤ fuel →
      (j, (k : Int)) ∈ s.items → j ∈ (runLoop statusAt fuel s).failed) ∧
    ∀ (s : LoopState) (N : Nat),
      (∀ p ∈ s.items, 1 ≤ p.2 ∧ p.2 ≤ (N : Int)) →
      (runLoop statusAt N s).items = [] := by
  have hfull := runLoop_single_pending statusAt j hnc R hR 0 [] [] 0 0
  have hpart := runLoop_single_pending_partial statusAt j hnc (R - 1) R
    (by omega) 0 [] [] 0 0
  refine ⟨by rw [hfull]; simp, by rw [hfull], by rw [hfull]; simp,
    by rw [hpart]; simp,
    fun k fuel s hk hf hm =>
      runLoop_pending_job_fails statusAt j hnc k hk fuel hf s hm,
    fun s N h => runLoop_bounded statusAt N s h⟩

/-- Witness for C4: a two-attempt budget on an always-pending job ends with
that job failed. -/
theorem budget_exhaustion_terminates_witness :
    (runLoop allPendingStatusAt 2
      ⟨0, [("j", ((2 : Nat) : Int))], [], [], 0, 0⟩).failed = ["j"] :=
  (budget_exhaustion_terminates allPendingStatusAt "j" 2 (by omega)
    (fun r => rfl)).1


/-- Each pass over the active items sends every item to exactly one of the
three buckets (succeeded, newly failed, remaining), so the job names are
conserved as a multiset. -/
theorem classification_partition (statusAt : String → Nat → JobStatus)
    (round : Nat) :
    ∀ items : List (String × Int),
      (↑(succeededNow statusAt round items) +
       ↑(failedNow statusAt round items) +
       ↑((remainingAfter statusAt round items).map Prod.fst) :
        Multiset String) = ↑(items.map Prod.fst) := by
  intro items
  induction items with
  | nil => rfl
  | cons p rest ih =>
    by_cases h1 : (check_success (statusAt p.1 round) p.2).1
    · have e1 : succeededNow statusAt round (p :: rest) =
          p.1 :: succeededNow statusAt round rest := by
        unfold succeededNow; simp [List.filterMap_cons, h1]
      have e2 : failedNow statusAt round (p :: rest) =
          failedNow statusAt round rest := by
        unfold failedNow; simp [List.filterMap_cons, h1]
      have e3 : remainingAfter statusAt round (p :: rest) =
          remainingAfter statusAt round rest := by
        unfold remainingAfter; simp [List.filterMap_cons, h1]
      rw [e1, e2, e3, List.map_cons, ← Multiset.cons_coe, ← Multiset.cons_coe,
        Multiset.cons_add, Multiset.cons_add, ih]
    · by_cases h2 : (check_success (statusAt p.1 round) p.2).2 = 0
      · have e1 : succeededNow statusAt round (p :: rest) =
            succeededNow statusAt round rest := by
          unfold succeededNow; simp [List.filterMap_cons, h1]
        have e2 : failedNow statusAt round (p :: rest) =
            p.1 :: failedNow statusAt round rest := by
          unfold failedNow; simp [List.filterMap_cons, h1, h2]
        have e3 : remainingAfter statusAt round (p :: rest) =
            remainingAfter statusAt round rest := by
          unfold remainingAfter; simp [List.filterMap_cons, h1, h2]
        rw [e1, e2, e3, List.map_cons, ← Multiset.cons_coe, ← Multiset.cons_coe,
          Multiset.add_cons, Multiset.cons_add, ih]
      · have e1 : succeededNow statusAt round (p :: rest) =
            succeededNow statusAt round rest := by
          unfold succeededNow; simp [List.filterMap_cons, h1]
        have e2 : failedNow statusAt round (p :: rest) =
            failedNow statusAt round rest := by
          unfold failedNow; simp [List.filterMap_cons, h1, h2]
        have e3 : remainingAfter statusAt round (p :: rest) =
            (p.1, (check_success (statusAt p.1 round) p.2).2) ::
              remainingAfter statusAt round rest := by
          unfold remainingAfter; simp [List.filterMap_cons, h1, h2]
        rw [e1, e2, e3, List.map_cons, List.map_cons, ← Multiset.cons_coe,
          ← Multiset.cons_coe, Multiset.add_cons, ih]

/-- One round conserves the multiset of job names spread over the active
list and the two verdict lists. -/
theorem stepRound_names (statusAt : String → Nat → JobStatus)
    (s : LoopState) :
    (↑((stepRound statusAt s).items.map Prod.fst) +
     ↑(stepRound statusAt s).failed + ↑(stepRound statusAt s).succeeded :
      Multiset String) =
    ↑(s.items.map Prod.fst) + ↑s.failed + ↑s.succeeded := by
  have hit : (stepRound statusAt s).items =
      remainingAfter statusAt s.round s.items := rfl
  have hf : (stepRound statusAt s).failed =
      s.failed ++ failedNow statusAt s.round s.items := rfl
  have hsc : (stepRound statusAt s).succeeded =
      s.succeeded ++ succeededNow statusAt s.round s.items := rfl
  rw [hit, hf, hsc, ← classification_partition statusAt s.round s.items]
  simp only [← Multiset.coe_add]
  abel

/-- The whole loop conserves the multiset of job names spread over the
active list and the two verdict lists. -/
theorem runLoop_names (statusAt : String → Nat → JobStatus) :
    ∀ (fuel : Nat) (s : LoopState),
      (↑((runLoop statusAt fuel s).items.map Prod.fst) +
       ↑(runLoop statusAt fuel s).failed +
       ↑(runLoop statusAt fuel s).succeeded : Multiset String) =
      ↑(s.items.map Prod.fst) + ↑s.failed + ↑s.succeeded := by
  intro fuel
  induction fuel with
  | zero => intro s; rfl
  | succ n ih =>
    intro s
    simp only [runLoop]
    split_ifs with he
    · rfl
    · rw [ih (stepRound statusAt s), stepRound_names]


/-- C5: starting from a duplicate-free set of discovered jobs, the job names
spread over the active list and the two verdict lists are conserved as a
multiset by any number of rounds (each job is removed exactly once, into
exactly one verdict), the combined list stays duplicate-free (no job
reappears after removal), and no job ends up with both verdicts. -/
theorem verdict_exactly_once (statusAt : String → Nat → JobStatus)
    (items0 : List (String × Int)) (fuel : Nat)
    (h : (items0.map Prod.fst).Nodup) :
    (↑((runLoop statusAt fuel ⟨0, items0, [], [], 0, 0⟩).items.map Prod.fst) +
     ↑(runLoop statusAt fuel ⟨0, items0, [], [], 0, 0⟩).failed +
     ↑(runLoop statusAt fuel ⟨0, items0, [], [], 0, 0⟩).succeeded :
      Multiset String) = ↑(items0.map Prod.fst) ∧
    ((runLoop statusAt fuel ⟨0, items0, [], [], 0, 0⟩).items.map Prod.fst ++
     (runLoop statusAt fuel ⟨0, items0, [], [], 0, 0⟩).failed ++
     (runLoop statusAt fuel ⟨0, items0, [], [], 0, 0⟩).succeeded).Nodup ∧
    ∀ j : String,
      ¬(j ∈ (runLoop statusAt fuel ⟨0, items0, [], [], 0, 0⟩).failed ∧
        j ∈ (runLoop statusAt fuel ⟨0, items0, [], [], 0, 0⟩).succeeded) := by
  have hm := runLoop_names statusAt fuel ⟨0, items0, [], [], 0, 0⟩
  simp only [] at hm
  have hm0 : (↑((runLoop statusAt fuel
      ⟨0, items0, [], [], 0, 0⟩).items.map Prod.fst) +
      ↑(runLoop statusAt fuel ⟨0, items0, [], [], 0, 0⟩).failed +
      ↑(runLoop statusAt fuel ⟨0, items0, [], [], 0, 0⟩).succeeded :
       Multiset String) = ↑(items0.map Prod.fst) := by
    rw [hm]; simp
  have happ : (↑(((runLoop statusAt fuel
      ⟨0, items0, [], [], 0, 0⟩).items.map Prod.fst ++
      (runLoop statusAt fuel ⟨0, items0, [], [], 0, 0⟩).failed ++
      (runLoop statusAt fuel ⟨0, items0, [], [], 0, 0⟩).succeeded)) :
       Multiset String) = ↑(items0.map Prod.fst) := by
    rw [← hm0]; simp only [← Multiset.coe_add]
  have hnd : ((runLoop statusAt fuel
      ⟨0, items0, [], [], 0, 0⟩).items.map Prod.fst ++
      (runLoop statusAt fuel ⟨0, items0, [], [], 0, 0⟩).failed ++
      (runLoop statusAt fuel ⟨0, items0, [], [], 0, 0⟩).succeeded).Nodup := by
    rw [← Multiset.coe_nodup, happ, Multiset.coe_nodup]
    exact h
  refine ⟨hm0, hnd, ?_⟩
  intro j ⟨hjf, hjs⟩
  rw [List.nodup_append] at hnd
  exact hnd.2.2 (List.mem_append_right _ hjf) hjs

/-- Witness for C5: with two distinct jobs and one round, no job carries both
verdicts. -/
theorem verdict_exactly_once_witness :
    ¬("a" ∈ (runLoop allPendingStatusAt 1
        ⟨0, [("a", 1), ("b", 2)], [], [], 0, 0⟩).failed ∧
      "a" ∈ (runLoop allPendingStatusAt 1
        ⟨0, [("a", 1), ("b", 2)], [], [], 0, 0⟩).succeeded) :=
  (verdict_exactly_once allPendingStatusAt [("a", 1), ("b", 2)] 1
    (by decide)).2.2 "a"


/-- C6: with zero discovered jobs `main` exits 0 immediately (`sys.exit(0)`):
no polling rounds, no sleeps, no re-fetches, and nothing printed from the
failed list. -/
theorem no_jobs_vacuous_success (statusAt : String → Nat → JobStatus)
    (retries : Int) (fuel : Nat) :
    mainRun statusAt [] retries fuel = ⟨0, 0, 0, 0, []⟩ := rfl

/-- A status source reporting every job complete with zero successes. -/
def allFailedStatusAt : String → Nat → JobStatus :=
  fun _ _ => ⟨some [⟨"Complete", "True"⟩], 0⟩

/-- C7: the epilogue of `main` exits 1 when the failed list is non-empty and
0 when it is empty, but because `sys.exit(1)` sits inside the printing loop
only the first failed job's details are printed: with two immediately-failing
jobs `"a"` and `"b"` the run exits 1 having printed the details of `"a"`
only, against the claim that every failed job's details are printed. -/
theorem failed_report_prints_only_first :
    mainRun allFailedStatusAt ["a", "b"] 24 24 = ⟨1, 1, 0, 0, ["a"]⟩ ∧
    finalReport ["a", "b"] = (1, ["a"]) ∧ finalReport [] = (0, []) := by
  refine ⟨?_, rfl, rfl⟩
  decide

theorem runLoop_succ (statusAt : String → Nat → JobStatus) (fuel : Nat)
    (s : LoopState) :
    runLoop statusAt (fuel + 1) s =
      if s.items.isEmpty then s
      else runLoop statusAt fuel (stepRound statusAt s) := rfl

/-- One round on a single job whose status is complete with successes: the
job moves to the succeeded verdicts, no sleep, no re-fetch. -/
theorem stepRound_single_succeeded (statusAt : String → Nat → JobStatus)
    (j : String) (r0 : Nat) (ret : Int) (F S : List String) (sl fe : Nat)
    (hc : hasCompleteTrue (statusAt j r0) = true)
    (hs : (statusAt j r0).succeeded ≠ 0) :
    stepRound statusAt ⟨r0, [(j, ret)], F, S, sl, fe⟩ =
      ⟨r0 + 1, [], F, S ++ [j], sl, fe⟩ := by
  have hck := check_success_of_succeeded (statusAt j r0) ret hc hs
  unfold stepRound remainingAfter failedNow succeededNow
  simp [hck]


/-- C9: after any round, a sleep happened in that round exactly when some job
remains active; the re-fetch counter grows by precisely the number of
remaining jobs (each remaining job's status is re-fetched before the next
round); and a single job that first shows a successful completion at round 3
of a 24-attempt budget yields exit code 0 after exactly 3 rounds, 2
inter-round sleeps and 2 re-fetches. -/
theorem sleep_iff_remaining (statusAt : String → Nat → JobStatus)
    (s : LoopState) (j : String)
    (h0 : pendingStatus (statusAt j 0) = true)
    (h1 : pendingStatus (statusAt j 1) = true)
    (h2 : hasCompleteTrue (statusAt j 2) = true)
    (hs : (statusAt j 2).succeeded ≠ 0) :
    ((stepRound statusAt s).sleeps = s.sleeps ↔
      (stepRound statusAt s).items = []) ∧
    (stepRound statusAt s).fetches =
      s.fetches + (stepRound statusAt s).items.length ∧
    mainRun statusAt [j] 24 24 = ⟨0, 3, 2, 2, []⟩ := by
  have hit : (stepRound statusAt s).items =
      remainingAfter statusAt s.round s.items := rfl
  have hsl : (stepRound statusAt s).sleeps = s.sleeps +
      (if (remainingAfter statusAt s.round s.items).isEmpty then 0 else 1) :=
    rfl
  have hfe : (stepRound statusAt s).fetches =
      s.fetches + (remainingAfter statusAt s.round s.items).length := rfl
  refine ⟨?_, by rw [hfe, hit], ?_⟩
  · rw [hit, hsl]
    by_cases he : (remainingAfter statusAt s.round s.items).isEmpty
    · rw [if_pos he, List.isEmpty_iff.mp he]
      simp
    · rw [if_neg he]
      constructor
      · intro hcontra
        exact absurd hcontra (by omega)
      · intro hnil
        rw [hnil] at he
        exact absurd rfl he
  · have step0 := stepRound_single_pending statusAt j 0 24 [] [] 0 0 h0
    rw [if_neg (by norm_num)] at step0
    norm_num at step0
    have step1 := stepRound_single_pending statusAt j 1 23 [] [] 1 1 h1
    rw [if_neg (by norm_num)] at step1
    norm_num at step1
    have step2 := stepRound_single_succeeded statusAt j 2 22 [] [] 2 2 h2 hs
    have hloop : runLoop statusAt 24 ⟨0, [(j, 24)], [], [], 0, 0⟩ =
        ⟨3, [], [], [j], 2, 2⟩ := by
      rw [show (24 : Nat) = 23 + 1 from rfl, runLoop_succ,
        if_neg (by simp), step0]
      rw [show (23 : Nat) = 22 + 1 from rfl, runLoop_succ,
        if_neg (by simp), step1]
      rw [show (22 : Nat) = 21 + 1 from rfl, runLoop_succ,
        if_neg (by simp), step2]
      rw [runLoop_of_items_nil rfl]
      simp
    show mainRun statusAt [j] 24 24 = ⟨0, 3, 2, 2, []⟩
    unfold mainRun initState
    rw [if_neg (by simp)]
    simp only [List.map_cons, List.map_nil]
    rw [hloop]
    rfl


/-- A status source: still running at rounds 0 and 1, complete with one
success from round 2 on. -/
def succeedsRound3StatusAt : String → Nat → JobStatus := fun _ r =>
  if r < 2 then ⟨none, 0⟩ else ⟨some [⟨"Complete", "True"⟩], 1⟩

/-- Witness for C9: the concrete succeed-on-round-3 source gives exit 0 with
exactly 2 sleeps and 2 re-fetches. -/
theorem sleep_iff_remaining_witness :
    mainRun succeedsRound3StatusAt ["j"] 24 24 = ⟨0, 3, 2, 2, []⟩ :=
  (sleep_iff_remaining succeedsRound3StatusAt ⟨0, [], [], [], 0, 0⟩ "j"
    (by decide) (by decide) (by decide) (by decide)).2.2

/-- A fetch that times out for job `"a"` and reports job `"b"` still
running. -/
def timeoutFetchA : String → Nat → Except FetchError JobStatus :=
  fun j _ => if j = "a" then .error .Timeout else .ok ⟨none, 0⟩

/-- C8 counterexample: two jobs are pending after round 1 and re-fetching job
`"a"` raises a transient `Timeout`; the run aborts with that error — the
failure is not treated as a still-running observation, no retry is consumed,
and job `"b"` is not polled any further. -/
theorem transient_fetch_aborts :
    runLoopE timeoutFetchA 24
      ⟨0, [("a", ⟨none, 0⟩, 24), ("b", ⟨none, 0⟩, 24)], [], [], 0⟩ =
      Except.error FetchError.Timeout := by rfl

/-- C8 amended: a fetch error raised while refreshing the remaining jobs
propagates out of the polling loop unchanged: the whole run aborts with that
error instead of consuming a retry and continuing with the other jobs. -/
theorem transient_fetch_propagates
    (fetch : String → Nat → Except FetchError JobStatus) (fuel : Nat)
    (s : LoopStateE) (e : FetchError)
    (hne : s.items.isEmpty = false)
    (herr : refreshAll fetch (s.round + 1) (remainingE s.items) =
      Except.error e) :
    runLoopE fetch (fuel + 1) s = Except.error e := by
  simp only [runLoopE, hne, Bool.false_eq_true, if_false]
  rw [herr]

/-- Witness for C8's amended claim at the concrete timing-out fetch. -/
theorem transient_fetch_propagates_witness :
    runLoopE timeoutFetchA 1
      ⟨0, [("a", ⟨none, 0⟩, 24), ("b", ⟨none, 0⟩, 24)], [], [], 0⟩ =
      Except.error FetchError.Timeout :=
  transient_fetch_propagates timeoutFetchA 0
    ⟨0, [("a", ⟨none, 0⟩, 24), ("b", ⟨none, 0⟩, 24)], [], [], 0⟩
    FetchError.Timeout (by rfl) (by rfl)

end Check

namespace CI

theorem mem_insertIfAbsent {a m : String} {acc : List String} :
    (m ∈ if a ∈ acc then acc else acc ++ [a]) ↔ m ∈ acc ∨ m = a := by
  split_ifs with h
  · constructor
    · exact Or.inl
    · rintro (hm | rfl)
      · exact hm
      · exact h
  · simp [List.mem_append]

theorem nodup_insertIfAbsent {a : String} {acc : List String}
    (h : acc.Nodup) : (if a ∈ acc then acc else acc ++ [a]).Nodup := by
  split_ifs with hmem
  · exact h
  · simp [List.nodup_append, h, hmem]

/-- The loop of `get_dirty_modules` keeps its accumulator duplicate-free and
collects exactly the first components of separator-containing files whose
directory has both a `Dockerfile` and a `build.yml`. -/
theorem get_dirty_modules_loop_spec (fsExists : String → Bool) :
    ∀ (files acc : List String), acc.Nodup →
      (get_dirty_modules_loop fsExists acc files).Nodup ∧
      ∀ m, m ∈ get_dirty_modules_loop fsExists acc files ↔
        m ∈ acc ∨
          ((∃ f ∈ files, f.contains '/' = true ∧ firstComponent f = m) ∧
           fsExists (os_path_join m "Dockerfile") = true ∧
           fsExists (os_path_join m "build.yml") = true) := by
  intro files
  induction files with
  | nil =>
    intro acc hacc
    exact ⟨hacc, fun m => by simp [get_dirty_modules_loop]⟩
  | cons f rest ih =>
    intro acc hacc
    by_cases hsep : f.contains '/' = true
    case neg =>
      have hstep : get_dirty_modules_loop fsExists acc (f :: rest) =
          get_dirty_modules_loop fsExists acc rest := by
        simp only [get_dirty_modules_loop]
        rw [if_neg hsep]
      obtain ⟨hnd, hmem⟩ := ih acc hacc
      refine ⟨by rw [hstep]; exact hnd, fun m => ?_⟩
      rw [hstep, hmem m]
      simp [List.exists_mem_cons_iff, hsep]
    case pos =>
      by_cases hdk :
        fsExists (os_path_join (firstComponent f) "Dockerfile") = true
      case neg =>
        have hdk' : fsExists (os_path_join (firstComponent f) "Dockerfile") =
            false := by
          revert hdk
          cases fsExists (os_path_join (firstComponent f) "Dockerfile") <;>
            simp
        have hstep : get_dirty_modules_loop fsExists acc (f :: rest) =
            get_dirty_modules_loop fsExists acc rest := by
          simp only [get_dirty_modules_loop]
          rw [if_pos hsep, if_pos (by simp [hdk'])]
        obtain ⟨hnd, hmem⟩ := ih acc hacc
        refine ⟨by rw [hstep]; exact hnd, fun m => ?_⟩
        rw [hstep, hmem m]
        simp only [List.exists_mem_cons_iff, hsep, true_and]
        by_cases hm : firstComponent f = m
        · subst hm
          simp [hdk']
        · simp [hm]
      case pos =>
        by_cases hby :
          fsExists (os_path_join (firstComponent f) "build.yml") = true
        case neg =>
          have hby' : fsExists (os_path_join (firstComponent f) "build.yml") =
              false := by
            revert hby
            cases fsExists (os_path_join (firstComponent f) "build.yml") <;>
              simp
          have hstep : get_dirty_modules_loop fsExists acc (f :: rest) =
              get_dirty_modules_loop fsExists acc rest := by
            simp only [get_dirty_modules_loop]
            rw [if_pos hsep, if_neg (by simp [hdk]), if_pos (by simp [hby'])]
          obtain ⟨hnd, hmem⟩ := ih acc hacc
          refine ⟨by rw [hstep]; exact hnd, fun m => ?_⟩
          rw [hstep, hmem m]
          simp only [List.exists_mem_cons_iff, hsep, true_and]
          by_cases hm : firstComponent f = m
          · subst hm
            simp [hby']
          · simp [hm]
        case pos =>
          have hstep : get_dirty_modules_loop fsExists acc (f :: rest) =
              get_dirty_modules_loop fsExists
                (if firstComponent f ∈ acc then acc
                 else acc ++ [firstComponent f]) rest := by
            simp only [get_dirty_modules_loop]
            rw [if_pos hsep, if_neg (by simp [hdk]), if_neg (by simp [hby])]
          obtain ⟨hnd, hmem⟩ :=
            ih (if firstComponent f ∈ acc then acc
                else acc ++ [firstComponent f]) (nodup_insertIfAbsent hacc)
          refine ⟨by rw [hstep]; exact hnd, fun m => ?_⟩
          rw [hstep, hmem m, mem_insertIfAbsent]
          simp only [List.exists_mem_cons_iff, hsep, true_and]
          by_cases hm : firstComponent f = m
          · subst hm
            simp [hdk, hby]
          · have hm' : ¬(m = firstComponent f) := fun h => hm h.symm
            simp [hm, hm']
      

/-- C10: `get_dirty_modules` returns, without duplicates, exactly the first
path components of the changed files that contain a path separator and whose
directory holds both a `Dockerfile` and a `build.yml`; changed files without
a separator (top-level files) never contribute a module. -/
theorem get_dirty_modules_spec (fsExists : String → Bool)
    (dirty_files : List String) :
    (get_dirty_modules fsExists dirty_files).Nodup ∧
    ∀ m, m ∈ get_dirty_modules fsExists dirty_files ↔
      (∃ f ∈ dirty_files, f.contains '/' = true ∧ firstComponent f = m) ∧
      fsExists (os_path_join m "Dockerfile") = true ∧
      fsExists (os_path_join m "build.yml") = true := by
  obtain ⟨hnd, hmem⟩ :=
    get_dirty_modules_loop_spec fsExists dirty_files [] (by simp)
  refine ⟨hnd, fun m => ?_⟩
  unfold get_dirty_modules
  rw [hmem m]
  simp

end CI
